import Mathlib

/-!
Verification of the synchronization hooks of macro-lua (`src/src/ulua.h`).

The header wires the Lua core's locking hook points to three extern
functions:

  `#define lua_lock(L) ulua_lock(L)`
  `#define lua_unlock(L) ulua_unlock(L)`
  `#define luai_userstateopen(L) ulua_init_lock(L)`
  `// #define luai_userstatethread(L,L1) ulua_init_lock(L1)`  (disabled)

The bodies of `ulua_lock`, `ulua_unlock` and `ulua_init_lock` are only
declared here (extern); their behaviour — the Lock Manager discipline over
a Guarded State — is modelled from the specification.  Each Guarded State
carries a State Lock with a lifecycle phase and a FIFO queue of threads
blocked in `acquire`; the Lock Manager operations are a step function over
that state, returning the fatal error condition when a contract is
violated.
-/

namespace MacroLua

/-- Lifecycle phase of a Guarded State's State Lock, per the spec's
state machine (§4.2): Uninitialized, Idle (initialized, unheld),
Held (owned by thread `t`), Destroyed (terminal). -/
inductive Phase where
  | uninit
  | idle
  | held (t : Nat)
  | destroyed
deriving DecidableEq, Repr

/-- Fatal error conditions of the spec's error taxonomy (§7):
`UninitializedLock`, `DoubleInitialize`, `ReleaseWithoutHold`,
`UseAfterDestroy`. -/
inductive LockErr where
  | uninitLock
  | doubleInit
  | releaseWithoutHold
  | useAfterDestroy
deriving DecidableEq, Repr

/-- A Guarded State: the lifecycle phase of its State Lock together with
the FIFO queue of threads currently blocked in `acquire` (Waiting). -/
structure GuardedState where
  phase : Phase
  waiting : List Nat
deriving DecidableEq, Repr

/-- The state of a freshly created, not yet initialized Guarded State. -/
def initGS : GuardedState := ⟨Phase.uninit, []⟩

/-- True once `initialize` has completed on the state
(spec: `state.lock.initialized`). -/
def initDone (s : GuardedState) : Prop := s.phase ≠ Phase.uninit

instance (s : GuardedState) : Decidable (initDone s) := by
  unfold initDone; infer_instance

/-- Thread `t` currently holds the State Lock of `s`
(spec: `held-by` = `t`). -/
def holds (s : GuardedState) (t : Nat) : Prop := s.phase = Phase.held t

instance (s : GuardedState) (t : Nat) : Decidable (holds s t) := by
  unfold holds; infer_instance

/-- Events of the Lock Manager model: the one-time lock initialization,
an `acquire` call by thread `t`, the scheduler waking the first blocked
waiter when the lock is unheld, a `release` call by thread `t`, and
host-driven destruction of the Guarded State. -/
inductive Event where
  | initLock
  | acquire (t : Nat)
  | wake
  | release (t : Nat)
  | destroy
deriving DecidableEq, Repr

/-- Modelled from the spec: the Lock Manager step function, covering the
bodies of `ulua_init_lock`, `ulua_lock` and `ulua_unlock`, which are
extern in `src/src/ulua.h` and not part of the repository sources.
Spec §4.1/§4.2: `initialize` moves Uninitialized to Idle and is a
`DoubleInitialize` violation otherwise; `acquire` on Idle takes the lock
immediately, on Held blocks the caller (appending it to the Waiting
queue, also when the caller is the holder — non-reentrant policy (a));
`wake` resumes the first Waiting thread when the lock is Idle and is a
scheduler no-op otherwise; `release` by the holder moves Held to Idle
and is a `ReleaseWithoutHold` violation for any other caller; `destroy`
moves Held or Idle to the terminal Destroyed phase.  `acquire`/`release`
before `initialize` fail with `UninitializedLock`; any operation after
destruction fails with `UseAfterDestroy`. -/
def step (s : GuardedState) : Event → Except LockErr GuardedState
  | Event.initLock =>
    match s.phase with
    | Phase.uninit => Except.ok { s with phase := Phase.idle }
    | _ => Except.error LockErr.doubleInit
  | Event.acquire t =>
    match s.phase with
    | Phase.uninit => Except.error LockErr.uninitLock
    | Phase.idle => Except.ok { s with phase := Phase.held t }
    | Phase.held _ => Except.ok { s with waiting := s.waiting ++ [t] }
    | Phase.destroyed => Except.error LockErr.useAfterDestroy
  | Event.wake =>
    match s.phase, s.waiting with
    | Phase.idle, w :: rest => Except.ok ⟨Phase.held w, rest⟩
    | _, _ => Except.ok s
  | Event.release t =>
    match s.phase with
    | Phase.uninit => Except.error LockErr.uninitLock
    | Phase.idle => Except.error LockErr.releaseWithoutHold
    | Phase.held u =>
      if u = t then Except.ok { s with phase := Phase.idle }
      else Except.error LockErr.releaseWithoutHold
    | Phase.destroyed => Except.error LockErr.useAfterDestroy
  | Event.destroy =>
    match s.phase with
    | Phase.uninit => Except.error LockErr.uninitLock
    | Phase.idle => Except.ok { s with phase := Phase.destroyed }
    | Phase.held _ => Except.ok { s with phase := Phase.destroyed }
    | Phase.destroyed => Except.error LockErr.useAfterDestroy

/-- Run a list of events from a state, stopping at the first fatal
error. -/
def run (s : GuardedState) : List Event → Except LockErr GuardedState
  | [] => Except.ok s
  | e :: es =>
    match step s e with
    | Except.ok s' => run s' es
    | Except.error err => Except.error err

/-- The thread performing an event, if any: `acquire` and `release` are
thread actions; initialization, wake-up and destruction are performed by
the host or the scheduler. -/
def eventThread : Event → Option Nat
  | Event.acquire t => some t
  | Event.release t => some t
  | _ => none

/-- A valid step of the concurrent system: the step succeeds, and the
acting thread is not currently blocked in `acquire` (a blocked thread
performs no actions until woken). -/
def ValidStep (s : GuardedState) (e : Event) (s' : GuardedState) : Prop :=
  step s e = Except.ok s' ∧ ∀ t, eventThread e = some t → t ∉ s.waiting

/-- Reachability along valid steps. -/
inductive Reach : GuardedState → GuardedState → Prop where
  | refl (s : GuardedState) : Reach s s
  | tail {s s₁ s₂ : GuardedState} {e : Event}
      (h : Reach s s₁) (hs : ValidStep s₁ e s₂) : Reach s s₂

/-- Modelled from the spec: `ulua_lock` (extern in `src/src/ulua.h`) is
the Lock Manager's `acquire`, called by thread `t` on state `L`. -/
def ulua_lock (t : Nat) (L : GuardedState) : Except LockErr GuardedState :=
  step L (Event.acquire t)

/-- Modelled from the spec: `ulua_unlock` (extern in `src/src/ulua.h`) is
the Lock Manager's `release`, called by thread `t` on state `L`. -/
def ulua_unlock (t : Nat) (L : GuardedState) : Except LockErr GuardedState :=
  step L (Event.release t)

/-- Modelled from the spec: `ulua_init_lock` (extern in `src/src/ulua.h`)
is the Lock Manager's `initialize` on state `L`. -/
def ulua_init_lock (L : GuardedState) : Except LockErr GuardedState :=
  step L Event.initLock

/-- Line 5 of `src/src/ulua.h`: `#define lua_lock(L) ulua_lock(L)` — the
core's lock hook passes its argument through to `ulua_lock` unchanged. -/
def lua_lock (t : Nat) (L : GuardedState) : Except LockErr GuardedState :=
  ulua_lock t L

/-- Line 6 of `src/src/ulua.h`: `#define lua_unlock(L) ulua_unlock(L)`. -/
def lua_unlock (t : Nat) (L : GuardedState) : Except LockErr GuardedState :=
  ulua_unlock t L

/-- Line 7 of `src/src/ulua.h`:
`#define luai_userstateopen(L) ulua_init_lock(L)`. -/
def luai_userstateopen (L : GuardedState) : Except LockErr GuardedState :=
  ulua_init_lock L

/-- The `luai_userstateopen` hook binding of `src/src/ulua.h` line 7:
present, bound to `ulua_init_lock`. -/
def userstateopenHook : Option (GuardedState → Except LockErr GuardedState) :=
  some luai_userstateopen

/-- The `luai_userstatethread` hook binding: line 8 of `src/src/ulua.h`
is commented out, so no hook is bound for derived thread states. -/
def userstatethreadHook :
    Option (GuardedState → GuardedState → Except LockErr GuardedState) :=
  none

/-- What the Lua core does when a top-level state is created: invoke the
`luai_userstateopen` hook if one is bound, otherwise leave the state
unchanged. -/
def openNewState (L : GuardedState) : Except LockErr GuardedState :=
  match userstateopenHook with
  | some f => f L
  | none => Except.ok L

/-- What the Lua core does when a derived thread state is created from
`parent`: invoke the `luai_userstatethread` hook if one is bound,
otherwise leave the new state unchanged. -/
def openNewThread (parent child : GuardedState) :
    Except LockErr GuardedState :=
  match userstatethreadHook with
  | some f => f parent child
  | none => Except.ok child

/-- Modelled from the spec: the creation of a Guarded State runs
`initialize` exactly once, before the handle is exposed to any thread
other than the creator (§3, §6); no other event occurs during creation. -/
def creationTrace : List Event := [Event.initLock]

/-- Modelled from the spec: creating a Guarded State runs the creation
trace from the fresh uninitialized state. -/
def createGS : Except LockErr GuardedState := run initGS creationTrace

/-! Helper lemmas shared across the claim theorems. -/

/-- A successful step of an initialized state never returns it to the
uninitialized phase. -/
theorem step_preserves_initDone {s s' : GuardedState} {e : Event}
    (h : step s e = Except.ok s') (hi : s.phase ≠ Phase.uninit) :
    s'.phase ≠ Phase.uninit := by
  obtain ⟨p, w⟩ := s
  cases p with
  | uninit => exact absurd rfl hi
  | idle =>
    cases e with
    | initLock => simp [step] at h
    | acquire t => simp [step] at h; subst h; simp
    | wake =>
      cases w with
      | nil => simp [step] at h; subst h; simp
      | cons a as => simp [step] at h; subst h; simp
    | release t => simp [step] at h
    | destroy => simp [step] at h; subst h; simp
  | held u =>
    cases e with
    | initLock => simp [step] at h
    | acquire t => simp [step] at h; subst h; simp
    | wake => simp [step] at h; subst h; simp
    | release t =>
      by_cases hu : u = t
      · simp [step, hu] at h; subst h; simp
      · simp [step, hu] at h
    | destroy => simp [step] at h; subst h; simp
  | destroyed =>
    cases e with
    | initLock => simp [step] at h
    | acquire t => simp [step] at h
    | wake => simp [step] at h; subst h; simp
    | release t => simp [step] at h
    | destroy => simp [step] at h

/-- Reachability preserves the initialized phase. -/
theorem reach_preserves_initDone {s s' : GuardedState}
    (h : Reach s s') (hi : s.phase ≠ Phase.uninit) :
    s'.phase ≠ Phase.uninit := by
  induction h with
  | refl => exact hi
  | tail h hs ih => exact step_preserves_initDone hs.1 ih

/-! The claim theorems. -/

/-- C9: the lock and unlock hook points invoke `ulua_lock` and
`ulua_unlock` with exactly the handle the runtime passed, unmodified:
`lua_lock(L)` is `ulua_lock(L)`, `lua_unlock(L)` is `ulua_unlock(L)`,
and likewise `luai_userstateopen(L)` is `ulua_init_lock(L)` — a
one-to-one pass-through with no transformation of the argument. -/
theorem lua_hooks_pass_through :
    (∀ t L, lua_lock t L = ulua_lock t L)
    ∧ (∀ t L, lua_unlock t L = ulua_unlock t L)
    ∧ (∀ L, luai_userstateopen L = ulua_init_lock L) :=
  ⟨fun _ _ => rfl, fun _ _ => rfl, fun _ => rfl⟩

/-- C10: only top-level state creation triggers the lock-initialization
hook (`luai_userstateopen` is bound to `ulua_init_lock`); the
`luai_userstatethread` binding is commented out, so creating a derived
thread state invokes no lock-initialization hook and leaves the
lock-initialization state unchanged. -/
theorem thread_hook_disabled :
    (∀ L, openNewState L = ulua_init_lock L)
    ∧ userstatethreadHook = none
    ∧ (∀ p c, openNewThread p c = Except.ok c)
    ∧ (∀ p c c', openNewThread p c = Except.ok c' →
        (initDone c' ↔ initDone c)) := by
  refine ⟨fun _ => rfl, rfl, fun _ _ => rfl, fun p c c' h => ?_⟩
  simp only [openNewThread, userstatethreadHook, Except.ok.injEq] at h
  rw [h]

/-- C10 witness: creating a derived thread state from a fresh parent
leaves the child state unchanged and its lock uninitialized. -/
theorem thread_hook_disabled_witness :
    openNewThread initGS initGS = Except.ok initGS
    ∧ (initDone initGS ↔ initDone initGS) :=
  ⟨thread_hook_disabled.2.2.1 initGS initGS,
   thread_hook_disabled.2.2.2 initGS initGS initGS rfl⟩

/-- C2: each Guarded State follows the per-instance state machine: it
starts Uninitialized; `initialize` moves Uninitialized to Idle;
`acquire` moves Idle to Held; `release` by the holder moves Held to
Idle, after which the scheduler wakes the first Waiting thread if one is
present (Idle to Held for the woken thread); host destruction moves Held
or Idle to the terminal Destroyed phase; and no successful transition
leads out of Destroyed. -/
theorem state_machine_conformance :
    initGS.phase = Phase.uninit
    ∧ (∀ s, s.phase = Phase.uninit →
        step s Event.initLock = Except.ok { s with phase := Phase.idle })
    ∧ (∀ s t, s.phase = Phase.idle →
        step s (Event.acquire t) = Except.ok { s with phase := Phase.held t })
    ∧ (∀ s t, s.phase = Phase.held t →
        step s (Event.release t) = Except.ok { s with phase := Phase.idle })
    ∧ (∀ s w rest, s.phase = Phase.idle → s.waiting = w :: rest →
        step s Event.wake = Except.ok ⟨Phase.held w, rest⟩)
    ∧ (∀ s, (s.phase = Phase.idle ∨ ∃ t, s.phase = Phase.held t) →
        step s Event.destroy = Except.ok { s with phase := Phase.destroyed })
    ∧ (∀ s e s', s.phase = Phase.destroyed → step s e = Except.ok s' →
        s' = s) := by
  refine ⟨rfl, fun s h => ?_, fun s t h => ?_, fun s t h => ?_,
    fun s w rest h hw => ?_, fun s h => ?_, fun s e s' h hstep => ?_⟩
  · simp [step, h]
  · simp [step, h]
  · simp [step, h]
  · simp [step, h, hw]
  · rcases h with h | ⟨t, h⟩ <;> simp [step, h]
  · cases e with
    | initLock => simp [step, h] at hstep
    | acquire t => simp [step, h] at hstep
    | wake =>
      cases hw : s.waiting <;> simp [step, h, hw] at hstep <;> simp [hstep]
    | release t => simp [step, h] at hstep
    | destroy => simp [step, h] at hstep

/-- C2 witness: a concrete run through the state machine — initialize,
acquire by thread 3, release by thread 3, wake of waiter 5, destroy —
each transition as the state machine prescribes. -/
theorem state_machine_conformance_witness :
    step initGS Event.initLock = Except.ok ⟨Phase.idle, []⟩
    ∧ step ⟨Phase.idle, []⟩ (Event.acquire 3) = Except.ok ⟨Phase.held 3, []⟩
    ∧ step ⟨Phase.held 3, []⟩ (Event.release 3) = Except.ok ⟨Phase.idle, []⟩
    ∧ step ⟨Phase.idle, [5, 7]⟩ Event.wake = Except.ok ⟨Phase.held 5, [7]⟩
    ∧ step ⟨Phase.idle, []⟩ Event.destroy = Except.ok ⟨Phase.destroyed, []⟩ :=
  ⟨state_machine_conformance.2.1 initGS rfl,
   state_machine_conformance.2.2.1 ⟨Phase.idle, []⟩ 3 rfl,
   state_machine_conformance.2.2.2.1 ⟨Phase.held 3, []⟩ 3 rfl,
   state_machine_conformance.2.2.2.2.1 ⟨Phase.idle, [5, 7]⟩ 5 [7] rfl rfl,
   state_machine_conformance.2.2.2.2.2.1 ⟨Phase.idle, []⟩ (Or.inl rfl)⟩

/-- C1: mutual exclusion — in every state reachable by valid steps, the
State Lock's held-by names at most one thread: no two distinct threads
hold the lock at the same time, so the held intervals of two distinct
threads never overlap. -/
theorem mutual_exclusion (s : GuardedState) (h : Reach initGS s)
    (t₁ t₂ : Nat) (hne : t₁ ≠ t₂) : ¬(holds s t₁ ∧ holds s t₂) := by
  rintro ⟨h₁, h₂⟩
  rw [holds] at h₁ h₂
  rw [h₁] at h₂
  exact hne (Phase.held.inj h₂)

/-- C1 witness: in the state reached by initializing and then thread 0
acquiring the lock, threads 0 and 1 do not both hold it. -/
theorem mutual_exclusion_witness :
    ¬(holds ⟨Phase.held 0, []⟩ 0 ∧ holds ⟨Phase.held 0, []⟩ 1) :=
  mutual_exclusion ⟨Phase.held 0, []⟩
    (Reach.tail
      (Reach.tail (Reach.refl initGS)
        (show ValidStep initGS Event.initLock ⟨Phase.idle, []⟩ from
          ⟨rfl, fun t ht => Option.noConfusion ht⟩))
      (show ValidStep ⟨Phase.idle, []⟩ (Event.acquire 0) ⟨Phase.held 0, []⟩ from
        ⟨rfl, fun t _ => List.not_mem_nil t⟩))
    0 1 (by decide)

/-- C3: on a Guarded State on which `initialize` has never completed —
i.e. after any run from the fresh state containing no initialization
event, which leaves the state unchanged — `acquire` and `release` both
fail with the fatal `UninitializedLock` error, never silently
succeeding. -/
theorem uninit_lock_fatal :
    (∀ es s', Event.initLock ∉ es → run initGS es = Except.ok s' →
      s' = initGS)
    ∧ (∀ s t, s.phase = Phase.uninit →
        step s (Event.acquire t) = Except.error LockErr.uninitLock
        ∧ step s (Event.release t) = Except.error LockErr.uninitLock) := by
  constructor
  · intro es
    induction es with
    | nil =>
      intro s' _ h
      simp [run] at h
      exact h.symm
    | cons e es ih =>
      intro s' hne h
      cases e with
      | initLock => exact absurd (List.mem_cons_self _ _) hne
      | acquire t => simp [run, step, initGS] at h
      | wake =>
        exact ih s' (fun hm => hne (List.mem_cons_of_mem _ hm)) h
      | release t => simp [run, step, initGS] at h
      | destroy => simp [run, step, initGS] at h
  · intro s t h
    exact ⟨by simp [step, h], by simp [step, h]⟩

/-- C3 witness: an `acquire` by thread 2 and a `release` by thread 2 on
the fresh, never-initialized state both fail with `UninitializedLock`;
a run consisting only of scheduler wake-ups leaves the state fresh. -/
theorem uninit_lock_fatal_witness :
    (run initGS [Event.wake] = Except.ok initGS → initGS = initGS)
    ∧ step initGS (Event.acquire 2) = Except.error LockErr.uninitLock
    ∧ step initGS (Event.release 2) = Except.error LockErr.uninitLock :=
  ⟨fun h => uninit_lock_fatal.1 [Event.wake] initGS (by decide) h,
   (uninit_lock_fatal.2 initGS 2 rfl).1,
   (uninit_lock_fatal.2 initGS 2 rfl).2⟩

/-- C4: once `initialize` has completed on a Guarded State, a second
call to `initialize` in any reachable later state is detected and fails
with the fatal `DoubleInitialize` error, never silently accepted. -/
theorem double_init_fatal (s₀ s₁ s : GuardedState)
    (h₀ : step s₀ Event.initLock = Except.ok s₁) (h : Reach s₁ s) :
    step s Event.initLock = Except.error LockErr.doubleInit := by
  have h₁ : s₁.phase ≠ Phase.uninit := by
    obtain ⟨p, w⟩ := s₀
    cases p with
    | uninit => simp [step] at h₀; subst h₀; simp
    | idle => simp [step] at h₀
    | held u => simp [step] at h₀
    | destroyed => simp [step] at h₀
  have h₂ : s.phase ≠ Phase.uninit := reach_preserves_initDone h h₁
  obtain ⟨p, w⟩ := s
  cases p with
  | uninit => exact absurd rfl h₂
  | idle => simp [step]
  | held u => simp [step]
  | destroyed => simp [step]

/-- C4 witness: initializing the fresh state and immediately calling
`initialize` again fails with `DoubleInitialize`. -/
theorem double_init_fatal_witness :
    step ⟨Phase.idle, []⟩ Event.initLock
      = Except.error LockErr.doubleInit :=
  double_init_fatal initGS ⟨Phase.idle, []⟩ ⟨Phase.idle, []⟩ rfl
    (Reach.refl ⟨Phase.idle, []⟩)

/-- C5: on an initialized Guarded State, `release` by a thread that does
not currently hold the State Lock — the lock is idle, or held by a
different thread — fails with the fatal `ReleaseWithoutHold` error; and
`release` succeeds only when the caller currently holds the lock. -/
theorem release_without_hold_fatal :
    (∀ s t, s.phase = Phase.idle →
        step s (Event.release t) = Except.error LockErr.releaseWithoutHold)
    ∧ (∀ s t u, s.phase = Phase.held u → u ≠ t →
        step s (Event.release t) = Except.error LockErr.releaseWithoutHold)
    ∧ (∀ s t s', step s (Event.release t) = Except.ok s' →
        s.phase = Phase.held t) := by
  refine ⟨fun s t h => by simp [step, h],
    fun s t u h hut => by simp [step, h, hut],
    fun s t s' h => ?_⟩
  obtain ⟨p, w⟩ := s
  cases p with
  | uninit => simp [step] at h
  | idle => simp [step] at h
  | held u =>
    by_cases hu : u = t
    · simp [hu]
    · simp [step, hu] at h
  | destroyed => simp [step] at h

/-- C5 witness: `release` by thread 0 on an idle lock fails with
`ReleaseWithoutHold`; so does `release` by thread 0 while thread 1 holds
the lock; and a successful `release` by thread 2 implies thread 2 was
the holder. -/
theorem release_without_hold_fatal_witness :
    step ⟨Phase.idle, []⟩ (Event.release 0)
      = Except.error LockErr.releaseWithoutHold
    ∧ step ⟨Phase.held 1, []⟩ (Event.release 0)
      = Except.error LockErr.releaseWithoutHold
    ∧ (⟨Phase.held 2, []⟩ : GuardedState).phase = Phase.held 2 :=
  ⟨release_without_hold_fatal.1 ⟨Phase.idle, []⟩ 0 rfl,
   release_without_hold_fatal.2.1 ⟨Phase.held 1, []⟩ 0 1 rfl (by decide),
   release_without_hold_fatal.2.2 ⟨Phase.held 2, []⟩ 2 ⟨Phase.idle, []⟩ rfl⟩

/-- C6: creating a Guarded State runs `initialize` exactly once, before
any thread other than the creator acts (the creation trace contains no
thread events), and afterwards the lock is initialized. -/
theorem creation_runs_init_once :
    createGS = Except.ok ⟨Phase.idle, []⟩
    ∧ (∀ s', createGS = Except.ok s' → initDone s')
    ∧ creationTrace.count Event.initLock = 1
    ∧ (∀ e, e ∈ creationTrace → eventThread e = none) := by
  refine ⟨rfl, fun s' h => ?_, by decide, fun e he => ?_⟩
  · injection h with h
    rw [← h]
    decide
  · simp [creationTrace] at he
    subst he
    rfl

/-- C6 witness: the created state is initialized, and the single
creation event is not an action of any thread. -/
theorem creation_runs_init_once_witness :
    initDone ⟨Phase.idle, []⟩ ∧ eventThread Event.initLock = none :=
  ⟨creation_runs_init_once.2.1 ⟨Phase.idle, []⟩ rfl,
   creation_runs_init_once.2.2.2 Event.initLock (by simp [creationTrace])⟩

/-- C7: immediately after any `release` by the holder, the lock is
initialized (no re-initialization is needed) and an `acquire` by any
thread — the same one or a different one — succeeds, returning the
instance to Held with the new caller as holder. -/
theorem release_then_reacquire (s : GuardedState) (t u : Nat)
    (h : s.phase = Phase.held t) :
    ∃ s₁ s₂, step s (Event.release t) = Except.ok s₁ ∧ initDone s₁
      ∧ step s₁ (Event.acquire u) = Except.ok s₂ ∧ holds s₂ u := by
  refine ⟨{ s with phase := Phase.idle }, { s with phase := Phase.held u },
    by simp [step, h], by simp [initDone], by simp [step], by simp [holds]⟩

/-- C7 witness: thread 0 releases the lock it holds, then thread 1
acquires it without re-initialization and becomes the holder. -/
theorem release_then_reacquire_witness :
    ∃ s₁ s₂,
      step ⟨Phase.held 0, []⟩ (Event.release 0) = Except.ok s₁
      ∧ initDone s₁
      ∧ step s₁ (Event.acquire 1) = Except.ok s₂ ∧ holds s₂ 1 :=
  release_then_reacquire ⟨Phase.held 0, []⟩ 0 1 rfl

/-- Preservation lemma for C8: once thread `t` is blocked in `acquire`
while also being the holder (or the state is destroyed), every valid
step keeps `t` blocked and keeps the phase at Held-by-`t` or
Destroyed. -/
theorem self_acquire_deadlock_inv {s₂ s₃ : GuardedState} {e : Event}
    (t : Nat) (hv : ValidStep s₂ e s₃) (hw : t ∈ s₂.waiting)
    (hp : s₂.phase = Phase.held t ∨ s₂.phase = Phase.destroyed) :
    t ∈ s₃.waiting
    ∧ (s₃.phase = Phase.held t ∨ s₃.phase = Phase.destroyed) := by
  obtain ⟨hstep, hth⟩ := hv
  obtain ⟨p, w⟩ := s₂
  simp only at hw
  cases e with
  | initLock =>
    rcases hp with hp | hp <;> (simp at hp; subst hp; simp [step] at hstep)
  | acquire u =>
    rcases hp with hp | hp
    · simp at hp; subst hp
      simp [step] at hstep
      subst hstep
      exact ⟨List.mem_append_left _ hw, Or.inl rfl⟩
    · simp at hp; subst hp
      simp [step] at hstep
  | wake =>
    rcases hp with hp | hp <;>
      (simp at hp; subst hp; simp [step] at hstep; subst hstep;
       exact ⟨hw, by simp⟩)
  | release u =>
    rcases hp with hp | hp
    · simp at hp; subst hp
      have hut : ¬(t = u) := fun hh => (hth u rfl) (hh ▸ hw)
      simp [step, hut] at hstep
    · simp at hp; subst hp
      simp [step] at hstep
  | destroy =>
    rcases hp with hp | hp
    · simp at hp; subst hp
      simp [step] at hstep
      subst hstep
      exact ⟨hw, Or.inr rfl⟩
    · simp at hp; subst hp
      simp [step] at hstep

/-- C8: under the non-reentrant policy, a second `acquire` by the thread
that already holds the lock never completes: the thread enters the
waiting queue and in every reachable later state it is still waiting —
it is never woken, so it never transitions to holding the lock twice. -/
theorem self_acquire_deadlocks (s s₁ : GuardedState) (t : Nat)
    (hh : s.phase = Phase.held t)
    (ha : step s (Event.acquire t) = Except.ok s₁) :
    t ∈ s₁.waiting ∧ ∀ s₂, Reach s₁ s₂ →
      t ∈ s₂.waiting
      ∧ (s₂.phase = Phase.held t ∨ s₂.phase = Phase.destroyed) := by
  have h₁ : t ∈ s₁.waiting
      ∧ (s₁.phase = Phase.held t ∨ s₁.phase = Phase.destroyed) := by
    obtain ⟨p, w⟩ := s
    simp at hh
    subst hh
    simp [step] at ha
    subst ha
    exact ⟨List.mem_append_right _ (List.mem_singleton.mpr rfl), Or.inl rfl⟩
  refine ⟨h₁.1, fun s₂ h => ?_⟩
  induction h with
  | refl => exact h₁
  | tail h hs ih => exact self_acquire_deadlock_inv t hs ih.1 ih.2

/-- C8 witness: thread 0 holds the lock and calls `acquire` again; it
lands in the waiting queue, and in every reachable later state it is
still blocked there. -/
theorem self_acquire_deadlocks_witness :
    0 ∈ ([0] : List Nat) ∧ ∀ s₂, Reach ⟨Phase.held 0, [0]⟩ s₂ →
      0 ∈ s₂.waiting
      ∧ (s₂.phase = Phase.held 0 ∨ s₂.phase = Phase.destroyed) :=
  self_acquire_deadlocks ⟨Phase.held 0, []⟩ ⟨Phase.held 0, [0]⟩ 0 rfl rfl

end MacroLua
